import Mathlib

/-!
Shallow embedding of the cam-server frame pipeline (camera.go, server.go,
timelapse.go and the timelapse worker variant with the external encode step).

The embedding models, close to the Go source:
* the encoder scratch-buffer copy discipline (`scratchStep`, from the
  reuse of `frame` in `encodeToImage`),
* the bounded non-blocking fan-out round (`fanoutAux` / `fanoutRound`, from the
  `for ; nn < N; nn++ { select ... }` loop),
* the capture loop wait/timeout/error handling (`captureIter`, `captureRun`,
  `captureLoop`, from `StreamWorker`),
* the shared `bytes.Buffer` handed to all consumers of one round
  (`BytesBuffer`, `runConsumers`),
* the timelapse tick including the unflushed `bufio.Writer`
  (`unflushedFileContent`, `tickPersist`, `timelapseTick`),
* consumer blocking reads and the encoder suspension points
  (`consumerReadStep`, `encoderUnblockedBy`),
* the lifecycle accounting (`spawnedWithWaitGroup`, `deferredDoneCalls`,
  `hasCtxDoneReceive`).
-/

namespace CamServer

/-! ## Encoder scratch buffer (`encodeToImage`, camera.go)

`encodeToImage` keeps `var frame []byte` across loop iterations.  Per raw
frame `bframe` it runs:
  if len(frame) < len(bframe) { frame = make([]byte, len(bframe)) }
  copy(frame, bframe)
and then decodes the whole of `frame`. -/

/-- Semantics of `copy(dst, src)` in Go: overwrites the first `min(len dst, len src)`
elements of `dst` with those of `src`; the rest of `dst` is untouched. -/
def goCopy (dst src : List Nat) : List Nat :=
  src.take (min dst.length src.length) ++ dst.drop (min dst.length src.length)

/-- One iteration of the scratch-buffer update in `encodeToImage`: grow the scratch
to the length of `bframe` only when strictly shorter (a fresh zeroed allocation, as
`make([]byte, n)` yields), then `copy` the raw frame over its front. -/
def scratchStep (frame bframe : List Nat) : List Nat :=
  goCopy (if frame.length < bframe.length then List.replicate bframe.length 0 else frame) bframe

/-- Scratch-buffer content after feeding a sequence of raw frames, starting
from the initial `nil` slice. -/
def scratchAfter (frames : List (List Nat)) : List Nat :=
  frames.foldl scratchStep []

/-- The byte sequence `image.Decode(bytes.NewReader(frame))` actually reads
for the last raw frame of the sequence: the whole scratch buffer. -/
def encoderDecodeInput (frames : List (List Nat)) : List Nat :=
  scratchAfter frames

theorem goCopy_eq_of_le (dst src : List Nat) (h : src.length ≤ dst.length) :
    goCopy dst src = src ++ dst.drop src.length := by
  unfold goCopy
  rw [min_eq_right h, List.take_length]

theorem scratchStep_eq (frame bframe : List Nat) :
    scratchStep frame bframe = bframe ++ frame.drop bframe.length := by
  unfold scratchStep
  split
  · next h =>
    rw [goCopy_eq_of_le _ _ (by simp), List.drop_eq_nil_of_le (by simp),
      List.drop_eq_nil_of_le (le_of_lt h)]
  · next h =>
    rw [goCopy_eq_of_le _ _ (by omega)]

theorem scratchStep_length (frame bframe : List Nat) :
    (scratchStep frame bframe).length = max frame.length bframe.length := by
  rw [scratchStep_eq]
  simp only [List.length_append, List.length_drop]
  omega

theorem scratchAfter_append (fs : List (List Nat)) (f : List Nat) :
    scratchAfter (fs ++ [f]) = scratchStep (scratchAfter fs) f := by
  unfold scratchAfter
  rw [List.foldl_append]
  rfl

theorem foldl_scratchStep_length (fs : List (List Nat)) :
    ∀ s : List Nat,
      (fs.foldl scratchStep s).length = fs.foldl (fun m g => max m g.length) s.length := by
  induction fs with
  | nil => intro s; rfl
  | cons g fs ih =>
    intro s
    simp only [List.foldl_cons]
    rw [ih, scratchStep_length]

theorem foldl_max_le_iff (c : Nat) (fs : List (List Nat)) :
    ∀ a : Nat,
      fs.foldl (fun m g => max m g.length) a ≤ c ↔ a ≤ c ∧ ∀ b ∈ fs, b.length ≤ c := by
  induction fs with
  | nil => intro a; simp
  | cons g fs ih =>
    intro a
    simp only [List.foldl_cons, ih, max_le_iff, List.mem_cons]
    constructor
    · rintro ⟨⟨h1, h2⟩, h3⟩
      refine ⟨h1, fun b hb => ?_⟩
      rcases hb with hb | hb
      · exact hb ▸ h2
      · exact h3 b hb
    · rintro ⟨h1, h2⟩
      exact ⟨⟨h1, h2 g (Or.inl rfl)⟩, fun b hb => h2 b (Or.inr hb)⟩

theorem scratchAfter_length_le_iff (fs : List (List Nat)) (c : Nat) :
    (scratchAfter fs).length ≤ c ↔ ∀ b ∈ fs, b.length ≤ c := by
  unfold scratchAfter
  rw [foldl_scratchStep_length, foldl_max_le_iff]
  simp

/-! ## Bounded non-blocking fan-out (`encodeToImage`, camera.go)

After encoding, `encodeToImage` runs
  const N = 50
  nn := 0
  FOR: for ; nn < N; nn++ { select { case li <- buf: ; default: break FOR } }
  if nn == 0 { li <- buf }
A non-blocking send attempt `select { case li <- buf: ... default: ... }`
succeeds exactly when some consumer is currently blocked receiving on `li`.
The oracle `f i` tells whether a consumer is waiting at the i-th attempt. -/

/-- Maximum fan-out per broadcast round (`const N = 50`). -/
def maxFanout : Nat := 50

/-- The attempt loop: `fuel` is the remaining iterations allowed by
`nn < N`, `i` the index of the current attempt.  Returns
(successful handoffs, attempts made).  A failed attempt (no waiting
consumer) hits the `default` case and breaks out of the loop. -/
def fanoutAux (f : Nat → Bool) : Nat → Nat → Nat × Nat
  | 0, _ => (0, 0)
  | fuel + 1, i =>
    if f i then
      match fanoutAux f fuel (i + 1) with
      | (s, a) => (s + 1, a + 1)
    else (0, 1)

/-- One full broadcast round: up to `maxFanout` non-blocking handoff
attempts, starting at attempt index 0. -/
def fanoutRound (f : Nat → Bool) : Nat × Nat :=
  fanoutAux f maxFanout 0

/-- The suspension points of the encoder goroutine between rounds.
`encodeToImage` has exactly three blocking channel operations:
`bframe := <-fi` (await a raw frame), `back <- struct{}{}` (hand the
go-ahead back to the capture loop), and — only when the round served
nobody — the blocking `li <- buf`. -/
inductive EncoderPhase
  | awaitRaw
  | sendBack
  | blockedDeliver
deriving DecidableEq, Repr

/-- Events that can complete an encoder suspension point. -/
inductive EncEvent
  | rawFrameArrives
  | backAck
  | consumerClaims
  | cancelFired
deriving DecidableEq, Repr

/-- Which event completes which blocking operation of `encodeToImage`.
Each Go channel operation completes exactly on its matching communication;
the function has no `ctx.Done()` case at any of them (it does not even
receive a context argument). -/
def encoderUnblockedBy : EncoderPhase → EncEvent → Bool
  | .awaitRaw, .rawFrameArrives => true
  | .sendBack, .backAck => true
  | .blockedDeliver, .consumerClaims => true
  | _, _ => false

/-- The phase the encoder is in right after the attempt loop:
`if nn == 0 { li <- buf }` blocks on delivery when nobody was served,
otherwise the loop returns to `bframe := <-fi`. -/
def encoderPhaseAfterRound (servedCount : Nat) : EncoderPhase :=
  if servedCount = 0 then .blockedDeliver else .awaitRaw

/-- Once the blocking delivery completes (a consumer claimed the frame),
the loop body ends and the next blocking operation is the raw-frame
receive at the top of the loop. -/
def encoderPhaseAfterDeliver : EncoderPhase := .awaitRaw

theorem fanoutAux_spec (f : Nat → Bool) :
    ∀ fuel i,
      (fanoutAux f fuel i).1 ≤ fuel
      ∧ ((fanoutAux f fuel i).1 = fuel → (fanoutAux f fuel i).2 = fuel)
      ∧ ((fanoutAux f fuel i).1 < fuel →
          f (i + (fanoutAux f fuel i).1) = false
          ∧ (fanoutAux f fuel i).2 = (fanoutAux f fuel i).1 + 1)
      ∧ (∀ j, j < (fanoutAux f fuel i).1 → f (i + j) = true) := by
  intro fuel
  induction fuel with
  | zero =>
    intro i
    refine ⟨le_refl 0, fun _ => rfl, fun h => absurd h (by simp [fanoutAux]), ?_⟩
    intro j hj
    simp [fanoutAux] at hj
  | succ n ih =>
    intro i
    by_cases hfi : f i
    · have hrec := ih (i + 1)
      have hdef : fanoutAux f (n + 1) i =
          ((fanoutAux f n (i + 1)).1 + 1, (fanoutAux f n (i + 1)).2 + 1) := by
        simp only [fanoutAux, hfi, if_true]
      rw [hdef]
      obtain ⟨h1, h2, h3, h4⟩ := hrec
      refine ⟨by omega, ?_, ?_, ?_⟩
      · intro h
        have : (fanoutAux f n (i + 1)).1 = n := by omega
        have := h2 this
        omega
      · intro h
        have hlt : (fanoutAux f n (i + 1)).1 < n := by omega
        obtain ⟨ha, hb⟩ := h3 hlt
        constructor
        · have : i + ((fanoutAux f n (i + 1)).1 + 1) = i + 1 + (fanoutAux f n (i + 1)).1 := by
            omega
          rw [this]
          exact ha
        · omega
      · intro j hj
        match j with
        | 0 => simpa using hfi
        | j + 1 =>
          have : i + (j + 1) = i + 1 + j := by omega
          rw [this]
          exact h4 j (by omega)
    · have hfi' : f i = false := by simpa using hfi
      have hdef : fanoutAux f (n + 1) i = (0, 1) := by
        simp [fanoutAux, hfi']
      rw [hdef]
      refine ⟨by omega, by omega, ?_, by omega⟩
      intro _
      simpa using hfi

/-! ## Capture loop (`StreamWorker`, camera.go)

Loop body:
  err = cam.WaitForFrame(uint32(WebcamFrameTimeoutSecs))
  switch err.(type) {
  case nil: failures = 0
  case *webcam.Timeout: if failures == WebcamFrameMaxTimeouts { errCh <- err }; failures++; continue
  default: errCh <- err
  }
  frame, err := cam.ReadFrame()
  if len(frame) != 0 { select { case fi <- frame: <-back; default: } } else if err != nil { errCh <- err }
The loop condition is `for !doShutdown`; no branch of the body breaks or
returns.  `errCh` has capacity 1000, so every report is a non-blocking
buffered send. -/

/-- `WebcamFrameMaxTimeouts` (timelapse.go globals). -/
def webcamFrameMaxTimeouts : Nat := 10

/-- Outcome of one `cam.WaitForFrame` call. -/
inductive WaitResult
  | ok
  | timeout
  | hardError
deriving DecidableEq, Repr

/-- Outcome of one `cam.ReadFrame` call: the returned byte slice and
whether the error value was non-nil. -/
structure ReadResult where
  frame : List Nat
  errored : Bool
deriving DecidableEq, Repr

/-- Observable outcome of one iteration of the capture loop body. -/
structure IterOutcome where
  /-- value of `failures` after the iteration -/
  failures : Nat
  /-- number of sends on `errCh` during the iteration -/
  reports : Nat
  /-- whether `cam.ReadFrame()` was called in this iteration -/
  readIssued : Bool
deriving DecidableEq, Repr

/-- The part of the loop body after the `switch`: the `cam.ReadFrame` call
and the forward/report logic. -/
def captureAfterSwitch (failures reports : Nat) (r : ReadResult) : IterOutcome :=
  { failures := failures
    reports := reports + (if r.frame.isEmpty && r.errored then 1 else 0)
    readIssued := true }

/-- One iteration of the capture loop body, given the current `failures`
counter, the wait result and (when a read happens) the read result.
The `timeout` case ends in `continue`, so no read is issued there;
the `default` (hard error) case reports and then falls through to the
read — it does not leave the loop. -/
def captureIter (maxT failures : Nat) (w : WaitResult) (r : ReadResult) : IterOutcome :=
  match w with
  | .timeout =>
    { failures := failures + 1
      reports := if failures = maxT then 1 else 0
      readIssued := false }
  | .ok => captureAfterSwitch 0 0 r
  | .hardError => captureAfterSwitch failures 1 r

/-- Fold the loop body over a list of iteration inputs, threading the
`failures` counter and accumulating the report count.  `st` is the pair
(failures, reports so far). -/
def captureRun (maxT : Nat) (st : Nat × Nat) : List (WaitResult × ReadResult) → Nat × Nat
  | [] => st
  | (w, r) :: rest =>
    captureRun maxT ((captureIter maxT st.1 w r).failures,
      st.2 + (captureIter maxT st.1 w r).reports) rest

/-- The loop driver `for !doShutdown { ... }`: each entry carries the value
of the `doShutdown` flag observed at the top of the iteration.  Returns
(final failures, total reports, iterations executed).  The only way the
loop stops is the flag — no error stops it. -/
def captureLoop (maxT : Nat) (st : Nat × Nat) :
    List (Bool × WaitResult × ReadResult) → Nat × Nat × Nat
  | [] => (st.1, st.2, 0)
  | (doShutdown, w, r) :: rest =>
    if doShutdown then (st.1, st.2, 0)
    else
      match captureLoop maxT ((captureIter maxT st.1 w r).failures,
          st.2 + (captureIter maxT st.1 w r).reports) rest with
      | (fl, rep, n) => (fl, rep, n + 1)

theorem captureRun_timeouts (maxT : Nat) (r : ReadResult) :
    ∀ (k s c : Nat),
      captureRun maxT (s, c) (List.replicate k (WaitResult.timeout, r))
        = (s + k, c + (if s ≤ maxT ∧ maxT < s + k then 1 else 0)) := by
  intro k
  induction k with
  | zero =>
    intro s c
    simp only [List.replicate, captureRun]
    have : ¬(s ≤ maxT ∧ maxT < s + 0) := by omega
    rw [if_neg this]
    simp
  | succ n ih =>
    intro s c
    simp only [List.replicate, captureRun, captureIter]
    rw [ih]
    by_cases hs : s = maxT
    · subst hs
      rw [if_pos rfl]
      have h1 : ¬(s + 1 ≤ s ∧ s < s + 1 + n) := by omega
      have h2 : s ≤ s ∧ s < s + (n + 1) := by omega
      rw [if_neg h1, if_pos h2]
      simp only [Prod.mk.injEq]
      constructor <;> first | trivial | omega
    · rw [if_neg hs]
      have heq : (s + 1 ≤ maxT ∧ maxT < s + 1 + n) ↔ (s ≤ maxT ∧ maxT < s + (n + 1)) := by
        omega
      by_cases hc : s ≤ maxT ∧ maxT < s + (n + 1)
      · rw [if_pos (heq.mpr hc), if_pos hc]
        simp only [Prod.mk.injEq]
        constructor <;> first | trivial | omega
      · rw [if_neg (fun h => hc (heq.mp h)), if_neg hc]
        simp only [Prod.mk.injEq]
        constructor <;> first | trivial | omega

theorem captureLoop_iterations (maxT : Nat) :
    ∀ (steps : List (Bool × WaitResult × ReadResult)) (st : Nat × Nat),
      (captureLoop maxT st steps).2.2 = (steps.takeWhile (fun s => !s.1)).length := by
  intro steps
  induction steps with
  | nil => intro st; rfl
  | cons hd tl ih =>
    intro st
    match hd with
    | (b, w, r) =>
      cases b
      · rcases hrec : captureLoop maxT ((captureIter maxT st.1 w r).failures,
          st.2 + (captureIter maxT st.1 w r).reports) tl with ⟨fl, rep, n⟩
        have hn := ih ((captureIter maxT st.1 w r).failures,
          st.2 + (captureIter maxT st.1 w r).reports)
        rw [hrec] at hn
        simp only [captureLoop, Bool.false_eq_true, if_false, hrec,
          List.takeWhile_cons, Bool.not_false, if_true, List.length_cons]
        simpa using hn
      · simp [captureLoop, List.takeWhile_cons]

/-! ## The shared `*bytes.Buffer` of one broadcast round

`encodeToImage` sends the same pointer `buf` to every consumer served in a
round.  `bytes.Buffer` keeps a read offset: `Bytes()` returns the unread
portion without consuming it, while `ioutil.ReadAll` (used on the sampled
image by `TimelapseWorker`) reads the buffer to EOF, advancing the offset
to the end.  `HandleStream` and `HandleSnapshot` use `img.Bytes()`. -/

/-- A Go `bytes.Buffer`: underlying data plus the read offset. -/
structure BytesBuffer where
  data : List Nat
  off : Nat
deriving DecidableEq, Repr

/-- `(*bytes.Buffer).Bytes()`: the unread slice, offset unchanged. -/
def BytesBuffer.bytes (b : BytesBuffer) : List Nat :=
  b.data.drop b.off

/-- `ioutil.ReadAll` on a `*bytes.Buffer`: returns the unread bytes and
leaves the offset at the end (a draining read). -/
def BytesBuffer.readAll (b : BytesBuffer) : List Nat × BytesBuffer :=
  (b.data.drop b.off, { b with off := b.data.length })

/-- How a consumer reads the shared buffer it received: `view` is
`img.Bytes()` (stream and snapshot handlers), `drain` is
`ioutil.ReadAll(img)` (the timelapse worker). -/
inductive ReadKind
  | view
  | drain
deriving DecidableEq, Repr

/-- Run the reads of the consumers of one fan-out round, in schedule order,
against the single shared buffer object; returns what each consumer
observes, plus the final buffer state. -/
def runConsumers : List ReadKind → BytesBuffer → List (List Nat) × BytesBuffer
  | [], b => ([], b)
  | ReadKind.view :: rest, b =>
    match runConsumers rest b with
    | (rs, b2) => (b.bytes :: rs, b2)
  | ReadKind.drain :: rest, b =>
    match runConsumers rest (b.readAll).2 with
    | (rs, b2) => ((b.readAll).1 :: rs, b2)

/-! ## Timelapse tick (`TimelapseWorker`, timelapse worker with encode step)

Per tick: `<-li` (discard), `img := <-li` (sample), create
`<unixTimestamp>.jpg`, `w := bufio.NewWriter(f)`, `b := ioutil.ReadAll(img)`,
`w.Write(b)` — and then, with no `w.Flush()` and no `f.Close()` ever issued,
invoke `ffmpeg` over the glob `<dir>/*.jpg`.  Error paths: create, read and
write failures do `errCh <- err; break FOR`; an `ffmpeg` failure does
`log.Println(err); return`. -/

/-- Default buffer size of `bufio.NewWriter` (Go standard library). -/
def goBufioSize : Nat := 4096

/-- On-disk content of the still after `w.Write(b)` with no `Flush` and no
`Close`: `bufio.Writer.Write` forwards a write that exceeds the buffer
capacity straight to the file (large write on an empty buffer); a payload
that fits in the buffer stays in memory and never reaches the file. -/
def unflushedFileContent (payload : List Nat) : List Nat :=
  if goBufioSize < payload.length then payload else []

/-- Directory state after a tick persists its still: the new entry is the
timestamp-named file with whatever actually reached the disk. -/
def tickPersist (dir : List (Nat × List Nat)) (ts : Nat) (frame : List Nat) :
    List (Nat × List Nat) :=
  dir ++ [(ts, unflushedFileContent frame)]

/-- The files the `ffmpeg` invocation of the same tick reads: the glob
`<dir>/*.jpg` matches every still present in the output directory. -/
def encodeGlobInput (dir : List (Nat × List Nat)) : List (Nat × List Nat) :=
  dir

/-- Fatal condition injected into one timelapse tick. -/
inductive TickFailure
  | noFailure
  | createErr
  | readErr
  | writeErr
  | encodeErr
deriving DecidableEq, Repr

/-- Observable outcome of one timelapse tick under a fatal condition. -/
structure TickOutcome where
  /-- sends on `errCh` during the tick -/
  reports : Nat
  /-- whether the worker leaves its loop (`break FOR` or `return`) -/
  stops : Bool
deriving DecidableEq, Repr

/-- Error handling of the tick body: `os.Create`, `ioutil.ReadAll` and
`w.Write` failures report on `errCh` and `break FOR`; the
`cmd.CombinedOutput()` failure of the `ffmpeg` step only logs locally and
returns — it performs no `errCh` send. -/
def timelapseTick : TickFailure → TickOutcome
  | .noFailure => { reports := 0, stops := false }
  | .createErr => { reports := 1, stops := true }
  | .readErr => { reports := 1, stops := true }
  | .writeErr => { reports := 1, stops := true }
  | .encodeErr => { reports := 0, stops := true }

/-- The coordinator in `main` starts shutdown on the first of: a value
available on `errCh`, or an OS signal. -/
def coordinatorTriggersShutdown (errChNonempty sigReceived : Bool) : Bool :=
  errChNonempty || sigReceived

/-! ## Encoder codec failures (`encodeToImage`, camera.go)

`image.Decode` or `jpeg.Encode` failure: `errCh <- err; return`. -/

/-- Outcome of the decode/re-encode step for one raw frame. -/
inductive CodecResult
  | codecOk
  | codecErr
deriving DecidableEq, Repr

/-- (reports sent, worker stops) for the codec step of `encodeToImage`. -/
def encoderCodecFailure : CodecResult → Nat × Bool
  | .codecOk => (0, false)
  | .codecErr => (1, true)

/-! ## Consumer reads of the broadcast slot under cancellation

`HandleStream` (`<-fc.li`), `HandleSnapshot` (`<-fc.li`) and the tick body
of `TimelapseWorker` (`<-li`, twice) block on a bare channel receive with
no `select` and no `ctx.Done()` case at that suspension point. -/

/-- State of a consumer at its broadcast-slot receive. -/
inductive ConsumerState
  | blockedOnSlot
  | unblocked
deriving DecidableEq, Repr

/-- Events visible to the system while the consumer is blocked. -/
inductive ConsumerEvent
  | cancelFired
  | frameDelivered
deriving DecidableEq, Repr

/-- A bare Go channel receive completes only on a delivery; cancellation is
not among the events the receive waits on, so it leaves the state
unchanged. -/
def consumerReadStep : ConsumerState → ConsumerEvent → ConsumerState
  | .blockedOnSlot, .frameDelivered => .unblocked
  | .blockedOnSlot, .cancelFired => .blockedOnSlot
  | .unblocked, _ => .unblocked

/-- Run a blocked consumer read against a sequence of events. -/
def consumerReadRun (evs : List ConsumerEvent) : ConsumerState :=
  evs.foldl consumerReadStep ConsumerState.blockedOnSlot

theorem consumerReadStep_unblocked (evs : List ConsumerEvent) :
    evs.foldl consumerReadStep ConsumerState.unblocked = ConsumerState.unblocked := by
  induction evs with
  | nil => rfl
  | cons e evs ih => cases e <;> simpa [consumerReadStep] using ih

/-! ## Lifecycle accounting (`main`, timelapse.go globals file)

`main` runs `wg.Add(3)` and spawns `StreamWorker`, `TimelapseWorker` and
`ServeHttp`, each with `defer wg.Done()` as its first statement.
`encodeToImage` is spawned inside `StreamWorker` with no `WaitGroup` and no
`context` argument; `StreamWorker`, `TimelapseWorker` and `ServeHttp` each
contain a `<-ctx.Done()` receive, `encodeToImage` contains none. -/

/-- The concurrent activities of the program core. -/
inductive Goroutine
  | streamWorker
  | timelapseWorker
  | httpServer
  | encoderBroadcaster
deriving DecidableEq, Repr

/-- The goroutines spawned in `main` under the `WaitGroup`. -/
def spawnedWithWaitGroup : List Goroutine :=
  [Goroutine.streamWorker, Goroutine.timelapseWorker, Goroutine.httpServer]

/-- The delta passed to `wg.Add` in `main`. -/
def wgAddDelta : Nat := 3

/-- Number of `defer wg.Done()` statements each goroutine runs on exit. -/
def deferredDoneCalls : Goroutine → Nat
  | .streamWorker => 1
  | .timelapseWorker => 1
  | .httpServer => 1
  | .encoderBroadcaster => 0

/-- Whether the body of the goroutine contains a `<-ctx.Done()` receive. -/
def hasCtxDoneReceive : Goroutine → Bool
  | .streamWorker => true
  | .timelapseWorker => true
  | .httpServer => true
  | .encoderBroadcaster => false

/-! ## Claim theorems -/

/-- C1: the claim asserts that every consumer served in one fan-out round
observes the same JPEG byte content even when the timelapse draining read
runs first.  False at a concrete input: all round consumers share one
`bytes.Buffer`; when the draining `ReadAll` of the timelapse worker is
scheduled before another consumer reads, that later consumer observes an
empty byte sequence instead of the frame, while the reverse schedule gives
both the full frame. -/
theorem C1_shared_buffer_drain :
    (runConsumers [ReadKind.drain, ReadKind.view] { data := [1, 2, 3], off := 0 }).1
      = [[1, 2, 3], []]
    ∧ (runConsumers [ReadKind.view, ReadKind.drain] { data := [1, 2, 3], off := 0 }).1
      = [[1, 2, 3], [1, 2, 3]]
    ∧ [[1, 2, 3], ([] : List Nat)] ≠ [[1, 2, 3], [1, 2, 3]] := by decide

/-- C2: if the fan-out round served zero consumers, the encoder moves to the
blocking delivery `li <- buf`, which only a consumer claim can complete —
in particular no raw-frame arrival (and no cancellation) unblocks it, and
only after the claim does the loop return to the raw-frame receive; if at
least one consumer was served, the encoder proceeds directly to the
raw-frame receive. -/
theorem C2_backpressure (f : Nat → Bool) :
    ((fanoutRound f).1 = 0 →
      encoderPhaseAfterRound (fanoutRound f).1 = EncoderPhase.blockedDeliver
      ∧ encoderUnblockedBy EncoderPhase.blockedDeliver EncEvent.consumerClaims = true
      ∧ encoderUnblockedBy EncoderPhase.blockedDeliver EncEvent.rawFrameArrives = false
      ∧ encoderUnblockedBy EncoderPhase.blockedDeliver EncEvent.cancelFired = false
      ∧ encoderUnblockedBy EncoderPhase.blockedDeliver EncEvent.backAck = false
      ∧ encoderPhaseAfterDeliver = EncoderPhase.awaitRaw)
    ∧ (0 < (fanoutRound f).1 →
      encoderPhaseAfterRound (fanoutRound f).1 = EncoderPhase.awaitRaw) := by
  constructor
  · intro h
    rw [h]
    exact ⟨by decide, by decide, by decide, by decide, by decide, by decide⟩
  · intro h
    unfold encoderPhaseAfterRound
    rw [if_neg (by omega)]

/-- C2 witness: with no consumer ever waiting, the round serves zero and the
encoder ends up blocked on delivery. -/
theorem C2_backpressure_witness :
    (fanoutRound (fun _ => false)).1 = 0
    ∧ encoderPhaseAfterRound (fanoutRound (fun _ => false)).1
        = EncoderPhase.blockedDeliver :=
  ⟨by decide, ((C2_backpressure (fun _ => false)).1 (by decide)).1⟩

/-- C3 counterexample: the claim asserts the capture loop stops after
sending a non-timeout device error and issues no further device reads or
reports.  At a concrete input the loop body, immediately after the report,
calls `cam.ReadFrame` in the same iteration, and two consecutive hard-error
iterations execute fully (the shutdown flag being unset) and send two
reports. -/
theorem C3_counterexample :
    (captureIter webcamFrameMaxTimeouts 0 WaitResult.hardError ⟨[7], false⟩).readIssued = true
    ∧ (captureRun webcamFrameMaxTimeouts (0, 0)
        [(WaitResult.hardError, ⟨[7], false⟩), (WaitResult.hardError, ⟨[7], false⟩)]).2 = 2
    ∧ (captureLoop webcamFrameMaxTimeouts (0, 0)
        [(false, WaitResult.hardError, ⟨[7], false⟩),
         (false, WaitResult.hardError, ⟨[7], false⟩)]).2.2 = 2 := by decide

/-- C3 amended: the encoder and timelapse workers stop after their first
fatal report, but the capture loop does not — after a non-timeout wait
error it still calls `cam.ReadFrame` in the same iteration, and it keeps
iterating exactly until the shutdown flag is observed set, regardless of
any errors, so it can send further reports. -/
theorem C3_amended_behavior (fl : Nat) (r : ReadResult)
    (steps : List (Bool × WaitResult × ReadResult)) (st : Nat × Nat) :
    (captureIter webcamFrameMaxTimeouts fl WaitResult.hardError r).readIssued = true
    ∧ (captureLoop webcamFrameMaxTimeouts st steps).2.2
        = (steps.takeWhile (fun s => !s.1)).length
    ∧ encoderCodecFailure CodecResult.codecErr = (1, true)
    ∧ (timelapseTick TickFailure.createErr).stops = true
    ∧ (timelapseTick TickFailure.readErr).stops = true
    ∧ (timelapseTick TickFailure.writeErr).stops = true :=
  ⟨rfl, captureLoop_iterations webcamFrameMaxTimeouts steps st, rfl, rfl, rfl, rfl⟩

/-- C4: the consecutive-timeout counter is reset to zero by any successful
wait; a run of consecutive timeouts starting from a reset counter emits no
report through the first `webcamFrameMaxTimeouts` timeouts, exactly one
report once the run reaches the `webcamFrameMaxTimeouts + 1`-th (the 11th,
with the configured maximum of 10), and still exactly one on any longer
run. -/
theorem C4_timeout_policy (r : ReadResult) (fl k j : Nat) :
    (captureIter webcamFrameMaxTimeouts fl WaitResult.ok r).failures = 0
    ∧ (k ≤ webcamFrameMaxTimeouts →
        (captureRun webcamFrameMaxTimeouts (0, 0)
          (List.replicate k (WaitResult.timeout, r))).2 = 0)
    ∧ (captureRun webcamFrameMaxTimeouts (0, 0)
        (List.replicate (webcamFrameMaxTimeouts + 1) (WaitResult.timeout, r))).2 = 1
    ∧ (webcamFrameMaxTimeouts + 1 ≤ j →
        (captureRun webcamFrameMaxTimeouts (0, 0)
          (List.replicate j (WaitResult.timeout, r))).2 = 1) := by
  refine ⟨rfl, ?_, ?_, ?_⟩
  · intro hk
    rw [captureRun_timeouts]
    rw [if_neg (by unfold webcamFrameMaxTimeouts at hk ⊢; omega)]
  · rw [captureRun_timeouts]
    rw [if_pos (by decide)]
  · intro hj
    rw [captureRun_timeouts]
    rw [if_pos ⟨Nat.zero_le _, by omega⟩]

/-- C4 witness: ten consecutive timeouts from a reset counter emit zero
reports; fifteen emit exactly one. -/
theorem C4_timeout_policy_witness :
    (10 ≤ webcamFrameMaxTimeouts ∧ webcamFrameMaxTimeouts + 1 ≤ 15)
    ∧ (captureRun webcamFrameMaxTimeouts (0, 0)
        (List.replicate 10 (WaitResult.timeout, ⟨[1], false⟩))).2 = 0
    ∧ (captureRun webcamFrameMaxTimeouts (0, 0)
        (List.replicate 15 (WaitResult.timeout, ⟨[1], false⟩))).2 = 1 :=
  ⟨⟨by decide, by decide⟩,
   (C4_timeout_policy ⟨[1], false⟩ 5 10 15).2.1 (by decide),
   (C4_timeout_policy ⟨[1], false⟩ 5 10 15).2.2.2 (by decide)⟩

/-- C5 counterexample: the claim asserts an `ffmpeg` failure is reported
upstream on the error-report path.  The tick body sends nothing on `errCh`
in that case (it only logs and returns), so the coordinator — which reacts
only to `errCh` or an OS signal — observes nothing. -/
theorem C5_counterexample :
    (timelapseTick TickFailure.encodeErr).reports = 0
    ∧ ¬1 ≤ (timelapseTick TickFailure.encodeErr).reports
    ∧ coordinatorTriggersShutdown
        (decide ((timelapseTick TickFailure.encodeErr).reports ≠ 0)) false = false := by
  decide

/-- C5 amended: an `ffmpeg` failure is fatal for the timelapse worker — it
stops at once and never retries — but the failure is only logged locally,
with no send on the error-report path, unlike the create/read/write
failures of the same tick body, which do report. -/
theorem C5_amended_local_log :
    (timelapseTick TickFailure.encodeErr).stops = true
    ∧ (timelapseTick TickFailure.encodeErr).reports = 0
    ∧ (timelapseTick TickFailure.createErr).reports = 1
    ∧ (timelapseTick TickFailure.readErr).reports = 1
    ∧ (timelapseTick TickFailure.writeErr).reports = 1 := by decide

/-- C6: the claim asserts every still is fully on disk before the same
tick invokes the encode glob.  False at a concrete input: the
`bufio.Writer` is never flushed and the file never closed, so a sampled
frame of ten bytes (at most the 4096-byte buffer) leaves an empty file on
disk, which the glob of the same tick nevertheless includes. -/
theorem C6_unflushed_still :
    unflushedFileContent [1, 2, 3, 4, 5, 6, 7, 8, 9, 10] = []
    ∧ encodeGlobInput (tickPersist [] 1700000000 [1, 2, 3, 4, 5, 6, 7, 8, 9, 10])
        = [(1700000000, [])]
    ∧ ([] : List Nat) ≠ [1, 2, 3, 4, 5, 6, 7, 8, 9, 10] := by decide

/-- C7 counterexample: the claim asserts a consumer blocked reading the
broadcast slot terminates once cancellation propagates.  After five
cancellation events and no frame, the bare channel receive is still
blocked. -/
theorem C7_counterexample :
    consumerReadRun (List.replicate 5 ConsumerEvent.cancelFired)
      = ConsumerState.blockedOnSlot
    ∧ ConsumerState.blockedOnSlot ≠ ConsumerState.unblocked := by decide

/-- C7 amended: a consumer blocked on the broadcast-slot receive never
observes cancellation at that suspension point: the read stays blocked
exactly as long as no frame is delivered, whatever cancellation events
occur. -/
theorem C7_amended_blocked_read (evs : List ConsumerEvent) :
    consumerReadRun evs = ConsumerState.blockedOnSlot
      ↔ ConsumerEvent.frameDelivered ∉ evs := by
  unfold consumerReadRun
  induction evs with
  | nil => simp
  | cons e evs ih =>
    cases e
    · simpa [List.foldl_cons, consumerReadStep] using ih
    · simp [List.foldl_cons, consumerReadStep, consumerReadStep_unblocked]

/-- C8 counterexample: the claim asserts the encoder/broadcaster worker
observes the cancellation signal and is accounted for in the completion
counter.  It has no `ctx.Done` receive, none of its blocking operations is
completed by cancellation, it runs no `wg.Done`, and it is not among the
goroutines spawned under the `WaitGroup`. -/
theorem C8_counterexample :
    hasCtxDoneReceive Goroutine.encoderBroadcaster = false
    ∧ deferredDoneCalls Goroutine.encoderBroadcaster = 0
    ∧ Goroutine.encoderBroadcaster ∉ spawnedWithWaitGroup
    ∧ encoderUnblockedBy EncoderPhase.awaitRaw EncEvent.cancelFired = false
    ∧ encoderUnblockedBy EncoderPhase.sendBack EncEvent.cancelFired = false
    ∧ encoderUnblockedBy EncoderPhase.blockedDeliver EncEvent.cancelFired = false := by
  decide

/-- C8 amended: the three goroutines spawned under the completion counter
(capture worker, timelapse worker, HTTP server) each contain a cancellation
receive and decrement the counter exactly once on exit, matching the
`wg.Add(3)` delta; the encoder/broadcaster contains no cancellation receive
and performs no decrement. -/
theorem C8_amended_lifecycle :
    wgAddDelta = 3
    ∧ spawnedWithWaitGroup
        = [Goroutine.streamWorker, Goroutine.timelapseWorker, Goroutine.httpServer]
    ∧ deferredDoneCalls Goroutine.streamWorker = 1
    ∧ deferredDoneCalls Goroutine.timelapseWorker = 1
    ∧ deferredDoneCalls Goroutine.httpServer = 1
    ∧ hasCtxDoneReceive Goroutine.streamWorker = true
    ∧ hasCtxDoneReceive Goroutine.timelapseWorker = true
    ∧ hasCtxDoneReceive Goroutine.httpServer = true
    ∧ deferredDoneCalls Goroutine.encoderBroadcaster = 0
    ∧ hasCtxDoneReceive Goroutine.encoderBroadcaster = false
    ∧ (spawnedWithWaitGroup.map deferredDoneCalls).sum = wgAddDelta := by decide

/-- C9: a fan-out round makes at most `maxFanout` attempts and serves at
most `maxFanout` consumers; when it serves the full `maxFanout` it stops by
the loop bound with exactly that many attempts; when it serves fewer, the
one extra attempt found no waiting consumer and the round stopped there;
and every attempt before the stop found a waiting consumer and delivered. -/
theorem C9_bounded_fanout (f : Nat → Bool) :
    (fanoutRound f).2 ≤ maxFanout
    ∧ (fanoutRound f).1 ≤ maxFanout
    ∧ ((fanoutRound f).1 = maxFanout → (fanoutRound f).2 = maxFanout)
    ∧ ((fanoutRound f).1 < maxFanout →
        f ((fanoutRound f).1) = false
        ∧ (fanoutRound f).2 = (fanoutRound f).1 + 1)
    ∧ (∀ j, j < (fanoutRound f).1 → f j = true) := by
  obtain ⟨h1, h2, h3, h4⟩ := fanoutAux_spec f maxFanout 0
  simp only [Nat.zero_add] at h3 h4
  simp only [fanoutRound]
  refine ⟨?_, h1, h2, h3, h4⟩
  rcases Nat.lt_or_ge (fanoutAux f maxFanout 0).1 maxFanout with hlt | hge
  · have := (h3 hlt).2
    omega
  · have heq : (fanoutAux f maxFanout 0).1 = maxFanout := le_antisymm h1 hge
    have := h2 heq
    omega

/-- C9 witness: with consumers waiting at exactly the first three attempts,
the round serves three, the fourth attempt finds nobody, the round makes
four attempts, and the third attempt (index 2) had a waiting consumer. -/
theorem C9_bounded_fanout_witness :
    (fanoutRound (fun i => decide (i < 3))).1 < maxFanout
    ∧ ((fun i => decide (i < 3)) ((fanoutRound (fun i => decide (i < 3))).1) = false
        ∧ (fanoutRound (fun i => decide (i < 3))).2
            = (fanoutRound (fun i => decide (i < 3))).1 + 1)
    ∧ 2 < (fanoutRound (fun i => decide (i < 3))).1
    ∧ (fun i => decide (i < 3)) 2 = true :=
  ⟨by decide,
   (C9_bounded_fanout (fun i => decide (i < 3))).2.2.2.1 (by decide),
   by decide,
   (C9_bounded_fanout (fun i => decide (i < 3))).2.2.2.2 2 (by decide)⟩

/-- C10: the byte sequence the encoder decodes for the last raw frame is
that frame followed by the leftover tail of the scratch buffer accumulated
from the earlier frames; it equals the raw frame exactly when no strictly
longer frame preceded it; and after a single longer frame the decoded
input is the short frame followed by the trailing bytes of that longer
frame. -/
theorem C10_scratch_reuse (fs : List (List Nat)) (f g : List Nat) :
    encoderDecodeInput (fs ++ [f]) = f ++ (scratchAfter fs).drop f.length
    ∧ (encoderDecodeInput (fs ++ [f]) = f ↔ ∀ b ∈ fs, b.length ≤ f.length)
    ∧ (f.length ≤ g.length → encoderDecodeInput [g, f] = f ++ g.drop f.length) := by
  have h1 : encoderDecodeInput (fs ++ [f]) = f ++ (scratchAfter fs).drop f.length := by
    unfold encoderDecodeInput
    rw [scratchAfter_append, scratchStep_eq]
  have happ : ∀ t : List Nat, f ++ t = f ↔ t = [] := by
    intro t
    constructor
    · intro h
      have := congrArg List.length h
      simp only [List.length_append] at this
      exact List.eq_nil_of_length_eq_zero (by omega)
    · intro h
      simp [h]
  have hdrop : (scratchAfter fs).drop f.length = []
      ↔ (scratchAfter fs).length ≤ f.length := by
    constructor
    · intro h
      have := congrArg List.length h
      simp only [List.length_drop, List.length_nil] at this
      omega
    · exact List.drop_eq_nil_of_le
  refine ⟨h1, ?_, ?_⟩
  · rw [h1, happ, hdrop, scratchAfter_length_le_iff]
  · intro _
    unfold encoderDecodeInput
    have h2 : scratchAfter [g, f] = scratchStep (scratchStep [] g) f := rfl
    rw [h2, scratchStep_eq, scratchStep_eq]
    simp

/-- C10 witness: raw frame of two bytes after a raw frame of four bytes —
the decoded input is the two bytes followed by the last two bytes of the
earlier frame. -/
theorem C10_scratch_reuse_witness :
    ([1, 2] : List Nat).length ≤ ([9, 9, 9, 9] : List Nat).length
    ∧ encoderDecodeInput [[9, 9, 9, 9], [1, 2]] = [1, 2] ++ [9, 9, 9, 9].drop 2
    ∧ encoderDecodeInput ([[9, 9, 9, 9]] ++ [[1, 2]])
        = [1, 2] ++ (scratchAfter [[9, 9, 9, 9]]).drop 2 :=
  ⟨by decide,
   (C10_scratch_reuse [] [1, 2] [9, 9, 9, 9]).2.2 (by decide),
   (C10_scratch_reuse [[9, 9, 9, 9]] [1, 2] [9, 9, 9, 9]).1⟩

end CamServer
